import Mathlib

/-!
Verification development for the deployment launcher service (`app.py`).

The service runs infrastructure deployment commands and relays progress as an
SSE event stream.  We shallowly embed the deterministic core of the code:

* Python string helpers (`strip`, `rstrip`, `replace`, the two `re.sub`
  password-masking passes) as executable functions on `List Char`/`String`;
* the dry-run credential masking `mask_secrets` (app.py lines 414-421);
* the asynchronous runner `run_command_async` (app.py lines 168-198);
* the SSE generator of `deploy_stream` (app.py lines 204-372): pre-command
  phase, the pod-monitoring loop, final drain and final status report;
* the non-streaming `deploy` handler (app.py lines 374-479).

Interaction with the outside world (child processes, the queue fed by the
runner thread, `kubectl` polls, wall-clock time) is supplied by explicit
"world" records: per pre-command a `CmdOutcome`, per monitoring iteration an
`IterObs` (queue contents drained, visibility of the runner's `done` flag,
poll result), the post-join run state, and per log source an outcome.
Wall-clock time is idealised as advancing by exactly `poll_interval` per
loop iteration (the `time.sleep(poll_interval)` at app.py line 323), so the
elapsed time read at the timeout check of 0-indexed iteration `i` is `5*i`.
SSE keepalive frames are comment frames, not events, and are not modelled.
-/

/-! ## Python string primitives -/

/-- Python's whitespace class used by `str.strip`, `str.rstrip` and `\s`. -/
def pyWs (c : Char) : Bool :=
  c == ' ' || c == '\t' || c == '\n' || c == '\r' || c == '\x0B' || c == '\x0C'

/-- Python `str.strip()` on a character list. -/
def pyStripL (l : List Char) : List Char :=
  ((l.dropWhile pyWs).reverse.dropWhile pyWs).reverse

/-- Python `str.strip()`. -/
def pyStrip (s : String) : String := ⟨pyStripL s.data⟩

/-- Python `str.rstrip()` (used on streamed output lines, app.py 107/186). -/
def pyRstrip (s : String) : String := ⟨(s.data.reverse.dropWhile pyWs).reverse⟩

/-- Python `str.split('\n')` on a character list: splitting on every
newline, keeping empty segments (`''.split('\n') == ['']`). -/
def splitNlL : List Char → List (List Char)
  | [] => [[]]
  | c :: rest =>
    if c = '\n' then [] :: splitNlL rest
    else
      match splitNlL rest with
      | [] => [[c]]
      | h :: t => (c :: h) :: t

/-- Python `str.split('\n')` (app.py lines 311, 352, 364). -/
def pySplitNl (s : String) : List String := (splitNlL s.data).map (fun l => ⟨l⟩)

/-- Python list slice `l[-n:]` (app.py line 364 uses `[-20:]`). -/
def lastN (n : Nat) (l : List α) : List α := l.drop (l.length - n)

/-- Python `'\n'.join(outputs)` (app.py lines 453, 465). -/
def joinLines : List String → String
  | [] => ""
  | [x] => x
  | x :: rest@(_ :: _) => x ++ "\n" ++ joinLines rest

/-! ## A scanner framework for `str.replace` and the two `re.sub` passes

`scanGo rep m fuel l` scans `l` left to right.  At each position it asks the
matcher `m` for a match at the current suffix; on `some (capt, k)` it emits
the captured text `capt` (the regex group `\1`, always a prefix of the
current suffix) followed by `rep`, and resumes after `k + 1` consumed
characters (`k` stores `consumed - 1`, every match consumes at least one
character); on `none` it copies one character.  With `fuel = l.length` this
is exactly Python's leftmost, non-overlapping replacement scan. -/

def scanGo (rep : List Char) (m : List Char → Option (List Char × Nat)) :
    Nat → List Char → List Char
  | _, [] => []
  | 0, l => l
  | fuel + 1, c :: rest =>
    match m (c :: rest) with
    | some (capt, k) => capt ++ rep ++ scanGo rep m fuel (rest.drop k)
    | none => c :: scanGo rep m fuel rest

/-- Matcher for a fixed literal `k :: ks` (Python `str.replace` semantics). -/
def matchKey (k : Char) (ks : List Char) (l : List Char) : Option (List Char × Nat) :=
  if (k :: ks).isPrefixOf l then some ([], ks.length) else none

/-- Python `s.replace(key, rep)`.  The source only calls this with a
non-empty `key` (`api_key` after the non-emptiness guard, and the literal
`"${VERSION}"`); for an empty key we return `s` unchanged. -/
def pyReplace (key rep s : String) : String :=
  match key.data with
  | [] => s
  | k :: ks => ⟨scanGo rep.data (matchKey k ks) s.data.length s.data⟩

/-- Character class `[=\s]` of the first masking regex. -/
def wsEq (c : Char) : Bool := c == '=' || pyWs c

/-- The literal `--password` of the first masking regex. -/
def lit1 : List Char := "--password".data

/-- Largest index of `l` holding a character that fails `p`
(`none` if every character satisfies `p`). -/
def lastIdxNot (p : Char → Bool) : List Char → Option Nat
  | [] => none
  | c :: rest =>
    match lastIdxNot p rest with
    | some i => some (i + 1)
    | none => if p c then none else some 0

/-- Matcher of `re.sub(r'(--password[=\s]+)[^\s]+', r'\1***', ...)`
(app.py line 419) at one position: the literal `--password`, then a greedy
`[=\s]+` run `A`, then a greedy non-whitespace chunk.  When the chunk after
`A` is empty (the `[=\s]+` run reaches the end of the string), the regex
engine backtracks `[=\s]+` to the longest proper prefix `A.take j` whose
next character `A[j]` is non-whitespace (necessarily `=`), and `[^\s]+`
consumes greedily from there; `j = 0` is rejected since `[=\s]+` needs at
least one character.  Returns the group `\1` and `consumed - 1`. -/
def match1 (l : List Char) : Option (List Char × Nat) :=
  if lit1.isPrefixOf l then
    let l1 := l.drop 10
    let A := l1.takeWhile wsEq
    if A.isEmpty then none
    else
      let B := (l1.drop A.length).takeWhile (fun c => !pyWs c)
      if B.isEmpty then
        match lastIdxNot pyWs A with
        | some j =>
          if 1 ≤ j then
            let chunk := (l1.drop j).takeWhile (fun c => !pyWs c)
            some (lit1 ++ A.take j, 10 + j + chunk.length - 1)
          else none
        | none => none
      else some (lit1 ++ A, 10 + A.length + B.length - 1)
  else none

/-- Character class `["\'>\s]` excluded from the replaced chunk of the
second masking regex. -/
def excl2 (c : Char) : Bool := c == '"' || c == '\'' || c == '>' || pyWs c

/-- The literal `password` of the second masking regex. -/
def lit2 : List Char := "password".data

/-- Tail of the second masking regex after the separator: an optional
quote, then a greedy chunk of characters outside `["\'>\s]`.  If a quote
is present but the chunk after it is empty, the engine backtracks to not
consuming the quote, and `[^"\'>\s]+` then fails on the quote itself, so
the whole match fails. -/
def match2Rest (sep : Char) : List Char → Option (List Char × Nat)
  | [] => none
  | q :: rest3 =>
    if q == '"' || q == '\'' then
      let chunk := rest3.takeWhile (fun c => !excl2 c)
      if chunk.isEmpty then none
      else some (lit2 ++ [sep, q], 8 + 2 + chunk.length - 1)
    else
      let chunk := (q :: rest3).takeWhile (fun c => !excl2 c)
      if chunk.isEmpty then none
      else some (lit2 ++ [sep], 8 + 1 + chunk.length - 1)

/-- Second masking regex after the literal `password`: a separator `=` or
`:`, then `match2Rest`. -/
def match2Tail : List Char → Option (List Char × Nat)
  | [] => none
  | sep :: rest2 => if sep == '=' || sep == ':' then match2Rest sep rest2 else none

/-- Matcher of `re.sub(r'(password[=:]["\']?)[^"\'>\s]+', r'\1***', ...)`
(app.py line 420) at one position. -/
def match2 (l : List Char) : Option (List Char × Nat) :=
  if lit2.isPrefixOf l then match2Tail (l.drop 8) else none

/-- The replacement text `***`. -/
def stars : List Char := ['*', '*', '*']

/-- `mask_secrets` of the dry-run branch (app.py lines 414-421):
`cmd.replace(api_key, '***')` followed by the two `re.sub` password
masking passes. -/
def mask_secrets (apiKey cmd : String) : String :=
  let m1 := pyReplace apiKey "***" cmd
  let m2 : String := ⟨scanGo stars match1 m1.data.length m1.data⟩
  ⟨scanGo stars match2 m2.data.length m2.data⟩

/-! ## Events and deployment configuration -/

/-- One SSE `data:` frame `{type, message?}` (the `complete` event carries
no message, app.py line 358). -/
structure Event where
  ty : String
  msg : Option String
deriving DecidableEq, Repr

/-- A message placed on the shared `log_queue`.  The only producers are
`execute_command` (app.py 107, kind `output`) and `run_command_async`
(app.py 186 kind `output`, 198 kind `error`). -/
inductive QMsg where
  | output (s : String)
  | error (s : String)
deriving DecidableEq, Repr

/-- Draining the queue turns a `QMsg` into an SSE event (app.py 252-253,
286-287, 331-332). -/
def qmsgEvent : QMsg → Event
  | .output s => ⟨"output", some s⟩
  | .error s => ⟨"error", some s⟩

/-- One post-deployment log source (command template and display label). -/
structure LogSource where
  command : String
  label : String
deriving DecidableEq, Repr

/-- The per-deployment-type configuration record (app.py lines 225-231,
397-401).  `nspace` is the config key `namespace` (a Lean keyword). -/
structure DeployConfig where
  working_dir : String
  env_var : String
  pre_commands : List String
  command : String
  log_sources : List LogSource
  nspace : String
  default_version : String
deriving DecidableEq, Repr

/-! ## The asynchronous runner (app.py lines 168-198) -/

/-- The shared run-state cell `result_holder` (app.py line 265):
initialised to `{done := false, returncode := none, stdout := ""}`. -/
structure Holder where
  done : Bool
  returncode : Option Int
  stdout : String
deriving DecidableEq, Repr

/-- `run_command_async`, as a function of what the child process did:
`lines` are the raw output lines successfully read from the merged
stdout/stderr pipe, and `rest` is either the process exit code or the text
of an exception raised while spawning/reading/waiting.  Returns the final
state of the shared cell and the messages put on the output queue.  Each
read line is enqueued `rstrip`ped (line 186); on an exception the cell gets
exit code 1 and the exception text, and a `Command error: ...` message is
enqueued (lines 194-198). -/
def run_command_async (lines : List String) (rest : Except String Int) :
    Holder × List QMsg :=
  let qs := lines.map (fun ln => QMsg.output (pyRstrip ln))
  match rest with
  | .ok rc => (⟨true, some rc, String.join lines⟩, qs)
  | .error e => (⟨true, some 1, e⟩, qs ++ [QMsg.error ("Command error: " ++ e)])

/-! ## The streaming generator of `deploy_stream` (app.py lines 204-372) -/

/-- Outcome of one pre-command execution through
`execute_command(..., stream_queue=log_queue)` (app.py line 248):
exit code, captured `stdout` (`''.join(output_lines)`), and the raw lines
that were placed on the queue while it ran. -/
structure CmdOutcome where
  returncode : Int
  stdout : String
  lines : List String

/-- What the monitoring loop observes during one iteration: the queue
messages drained at line 284-289, the value of `result_holder['done']` read
at line 292, and the poll result (`some s` for `pod_result.stdout = s`,
`none` when `subprocess.run` raised and line 316 logged the error). -/
structure IterObs where
  drained : List QMsg
  doneVisible : Bool
  poll : Option String

/-- Environment of one `deploy_stream` request. -/
structure World where
  pre : Nat → CmdOutcome
  sched : Nat → IterObs
  finalRC : Option Int
  finalStdout : String
  finalDrain : List QMsg
  logRun : Nat → Except String String

/-- Result of the pre-command phase (app.py lines 244-258): emitted events,
the commands actually handed to the runner, and whether the phase completed
without a failing pre-command. -/
structure PreResult where
  events : List Event
  executed : List String
  ok : Bool
deriving DecidableEq, Repr

/-- The pre-command loop (app.py lines 244-258): for the 1-based index
`i+1` of each pre-command it emits a `section` and a `command` event,
drains the streamed `output` lines, and on a nonzero exit emits two `error`
events (exit code, captured output) and aborts. -/
def preRun (out : Nat → CmdOutcome) (total : Nat) : Nat → List String → PreResult
  | _, [] => ⟨[], [], true⟩
  | i, cmd :: rest =>
    let o := out i
    let hdr := [Event.mk "section" (some ("Pre-command " ++ toString (i + 1) ++ "/" ++ toString total)),
                Event.mk "command" (some cmd)]
    let outs := o.lines.map (fun ln => Event.mk "output" (some (pyRstrip ln)))
    if o.returncode = 0 then
      let r := preRun out total (i + 1) rest
      ⟨hdr ++ outs ++ r.events, cmd :: r.executed, r.ok⟩
    else
      ⟨hdr ++ outs ++
        [Event.mk "error" (some ("Pre-command failed with exit code " ++ toString o.returncode)),
         Event.mk "error" (some o.stdout)], [cmd], false⟩

/-- The monitoring loop parameters (app.py lines 273, 276). -/
def pollInterval : Nat := 5

/-- The soft monitoring deadline in seconds (app.py line 276). -/
def maxMonitorTime : Nat := 300

/-- The pod polling shell command (app.py line 300). -/
def pollCmd (ns : String) : String :=
  "kubectl get pods -n " ++ ns ++ " --no-headers 2>/dev/null | head -20"

/-- The `pods` group header event (app.py line 310). -/
def podsHeader : Event := ⟨"pods", some "📦 Pod Status:"⟩

/-- The soft-timeout informational event (app.py line 320). -/
def infoTimeout : Event :=
  ⟨"info", some "Monitoring timeout reached, deployment may still be in progress"⟩

/-- One status poll step (app.py lines 297-316): on a successful poll the
text is stripped; if it is non-empty and differs from the last recorded
status, one `pods` header plus at most 15 `pod` events (the non-blank lines
among the first 15 raw lines) are emitted and the recorded status is
updated.  A failed poll (`none`) emits nothing and keeps the state. -/
def pollEvents (lastPod : String) (res : Option String) : List Event × String :=
  match res with
  | none => ([], lastPod)
  | some s =>
    let st := pyStrip s
    if st ≠ "" ∧ st ≠ lastPod then
      (podsHeader ::
        (((pySplitNl st).take 15).filter (fun ln => pyStrip ln ≠ "")).map
          (fun ln => Event.mk "pod" (some ln)), st)
    else ([], lastPod)

/-- Result of the monitoring loop: events emitted inside the loop, poll
commands spawned, the 0-indexed iteration during which the loop broke,
whether it broke through the soft timeout, whether it broke at all (`false`
only on fuel exhaustion, which `monitorLoop_breaks` rules out), and the
last recorded pod status. -/
structure LoopResult where
  events : List Event
  execs : List String
  exitIter : Nat
  timedOut : Bool
  broke : Bool
  lastPod : String
deriving DecidableEq, Repr

/-- The monitoring loop (app.py lines 279-323), fuel-indexed.  One
iteration: drain the queue (the keepalive comment frame is not an event),
read `done` — if set, bump the stable-iterations counter and break once it
reaches 2 —, poll the pod status, and break with an informational event
when the elapsed time `pollInterval * i` exceeds the soft deadline.  The
loop condition `while not done or polls_without_change < 2` is always true
when control returns to the top (the counter is below 2 there, or the body
would have broken), so the loop only ever exits through its breaks. -/
def monitorLoop (sched : Nat → IterObs) (ns : String) :
    Nat → Nat → Nat → String → LoopResult
  | 0, i, _, lastPod => ⟨[], [], i, false, false, lastPod⟩
  | fuel + 1, i, counter, lastPod =>
    let obs := sched i
    let dr := obs.drained.map qmsgEvent
    if obs.doneVisible ∧ 2 ≤ counter + 1 then
      ⟨dr, [], i, false, true, lastPod⟩
    else
      let counter' := if obs.doneVisible then counter + 1 else counter
      let pe := pollEvents lastPod obs.poll
      if maxMonitorTime < pollInterval * i then
        ⟨dr ++ pe.1 ++ [infoTimeout], [pollCmd ns], i, true, true, pe.2⟩
      else
        let r := monitorLoop sched ns fuel (i + 1) counter' pe.2
        ⟨dr ++ pe.1 ++ r.events, pollCmd ns :: r.execs, r.exitIter, r.timedOut, r.broke, r.lastPod⟩

/-- Fuel sufficient for the monitoring loop: the soft timeout fires during
iteration 61 at the latest (`5 * 61 = 305 > 300`), so 62 iterations always
suffice. -/
def loopFuel : Nat := 62

/-- The monitoring loop as entered at app.py line 279. -/
def runLoop (sched : Nat → IterObs) (ns : String) : LoopResult :=
  monitorLoop sched ns loopFuel 0 0 ""

/-- Rendering of `result_holder["returncode"]` in the failure message
(Python prints the unset value as `None`). -/
def rcStr : Option Int → String
  | none => "None"
  | some n => toString n

/-- The failure report (app.py lines 359-366): one `error` event with the
exit code, then — when the captured output is non-empty — one `error` event
per non-blank line among the last 20 raw lines. -/
def failTail (rc : Option Int) (txt : String) : List Event :=
  Event.mk "error" (some ("Deployment failed with exit code " ++ rcStr rc)) ::
  (if txt ≠ "" then
     ((lastN 20 (pySplitNl txt)).filter (fun ln => pyStrip ln ≠ "")).map
       (fun ln => Event.mk "error" (some ln))
   else [])

/-- The log-source loop of the success report (app.py lines 342-357):
for source `i` it substitutes the version into the command template, emits
an `info` header with the label, then either one `log` event per non-blank
line of the fetched text, or — if fetching raised — one `error` event
naming the label. -/
def logSourceEvents (ver : String) (logRun : Nat → Except String String) :
    Nat → List LogSource → List Event × List String
  | _, [] => ([], [])
  | i, src :: rest =>
    let cmd := pyReplace "$\x7bVERSION\x7d" ver src.command
    let hdr := Event.mk "info" (some ("--- " ++ src.label ++ " ---"))
    let cur : List Event :=
      match logRun i with
      | .ok outTxt =>
          ((pySplitNl (pyStrip outTxt)).filter (fun ln => pyStrip ln ≠ "")).map
            (fun ln => Event.mk "log" (some ln))
      | .error e => [Event.mk "error" (some ("Failed to get " ++ src.label ++ ": " ++ e))]
    let r := logSourceEvents ver logRun (i + 1) rest
    (hdr :: cur ++ r.1, cmd :: r.2)

/-- The success report (app.py lines 337-358): `success` event, `section`
header, the log sources, and the terminal `complete` event. -/
def successTail (c : DeployConfig) (ver : String)
    (logRun : Nat → Except String String) : List Event × List String :=
  let ls := logSourceEvents ver logRun 0 c.log_sources
  (Event.mk "success" (some "Helm install command completed successfully!") ::
   Event.mk "section" (some "Final Status") :: ls.1 ++ [Event.mk "complete" none], ls.2)

/-- Result of one `deploy_stream` request: the ordered event stream and the
trace of shell commands handed to `subprocess` (pre-commands, the main
command, pod polls, log-source commands). -/
structure GenResult where
  events : List Event
  executed : List String
deriving DecidableEq, Repr

/-- The `generate()` SSE generator of `deploy_stream` (app.py lines
204-372).  `cfg?` is the resolved deployment type and configuration
(`none` when no deployment type resolves, lines 221-223); the credential
guard is at lines 210-212.  After a successful pre-command phase the main
command is started, the monitoring loop runs, the queue is drained one last
time after the 10-second join, and the final status is reported according
to the recorded exit code (lines 337-366). -/
def generate (apiKey version : String) (cfg? : Option (String × DeployConfig))
    (w : World) : GenResult :=
  if apiKey = "" then ⟨[Event.mk "error" (some "API key is required")], []⟩
  else
    match cfg? with
    | none => ⟨[Event.mk "error" (some "No deployment configured")], []⟩
    | some (dt, c) =>
      let ver := if version = "" then c.default_version else version
      let startE := Event.mk "start" (some ("Starting " ++ dt ++ " deployment..."))
      let pr := preRun w.pre c.pre_commands.length 0 c.pre_commands
      if pr.ok then
        let lr := runLoop w.sched c.nspace
        let tl := if w.finalRC = some 0 then successTail c ver w.logRun
                  else (failTail w.finalRC w.finalStdout, [])
        ⟨startE :: pr.events ++
           Event.mk "section" (some "Main Deployment") :: Event.mk "command" (some c.command) ::
           lr.events ++ w.finalDrain.map qmsgEvent ++ tl.1,
         pr.executed ++ c.command :: lr.execs ++ tl.2⟩
      else
        ⟨startE :: pr.events, pr.executed⟩

/-! ## The non-streaming `deploy` handler (app.py lines 374-479) -/

/-- Result of `execute_command` in pure-capture mode (app.py lines 76-87):
`stdout` and `stderr` are kept separate. -/
structure SyncOutcome where
  returncode : Int
  stdout : String
  stderr : String

/-- Environment of one non-streaming `deploy` request. -/
structure DeployWorld where
  pre : Nat → SyncOutcome
  main : SyncOutcome

/-- The `would_execute` object returned by dry-run mode (app.py 423-437). -/
structure DryRunInfo where
  deployment_type : String
  version : String
  working_directory : String
  env_shown : List (String × String)
  pre_commands : List String
  main_command : String
deriving DecidableEq, Repr

/-- JSON body of a `deploy` response. -/
inductive RespBody where
  | fail (msg : String) (output : Option String)
  | okBody (msg output : String)
  | dry (info : DryRunInfo)
deriving DecidableEq, Repr

/-- HTTP status, body, and spawned-command trace of one `deploy` request. -/
structure DeployResult where
  status : Nat
  body : RespBody
  executed : List String
deriving DecidableEq, Repr

/-- Python `str.title()` (app.py line 464), on the alphabetic
approximation of "cased" characters. -/
def pyTitleGo : Bool → List Char → List Char
  | _, [] => []
  | prevAlpha, c :: rest =>
    (if c.isAlpha then (if prevAlpha then c.toLower else c.toUpper) else c) ::
      pyTitleGo c.isAlpha rest

/-- Python `str.title()`. -/
def pyTitle (s : String) : String := ⟨pyTitleGo false s.data⟩

/-- The pre-command loop of `deploy` (app.py lines 444-454): accumulated
`outputs` entries, executed commands, and `some stderr` on the first
nonzero exit (which aborts the loop). -/
def deployPre (out : Nat → SyncOutcome) : Nat → List String →
    List String × List String × Option String
  | _, [] => ([], [], none)
  | i, cmd :: rest =>
    let r := out i
    let outLine := "Pre-command output: " ++ r.stdout
    if r.returncode = 0 then
      let rr := deployPre out (i + 1) rest
      (outLine :: rr.1, cmd :: rr.2.1, rr.2.2)
    else
      ([outLine], [cmd], some r.stderr)

/-- The `deploy` handler (app.py lines 374-479).  `envDry` models the
`DRY_RUN` environment toggle at line 381.  Dry-run mode returns the masked
would-be commands and executes nothing (lines 413-439); otherwise the
pre-commands run sequentially with abort-on-failure (444-454) and the main
command decides the response (456-472). -/
def deploy (apiKey version : String) (dryRun envDry : Bool)
    (cfg? : Option (String × DeployConfig)) (w : DeployWorld) : DeployResult :=
  let dry := dryRun || envDry
  if apiKey = "" then ⟨400, .fail "API key is required" none, []⟩
  else
    match cfg? with
    | none => ⟨500, .fail "No deployment configured" none, []⟩
    | some (dt, c) =>
      let ver := if version = "" then c.default_version else version
      if dry then
        ⟨200, .dry
          { deployment_type := dt
            version := ver
            working_directory := c.working_dir
            env_shown := [(c.env_var, "***hidden***"), ("VERSION", ver)]
            pre_commands := c.pre_commands.map (mask_secrets apiKey)
            main_command := mask_secrets apiKey c.command }, []⟩
      else
        let p := deployPre w.pre 0 c.pre_commands
        match p.2.2 with
        | some errTxt =>
          ⟨500, .fail ("Pre-command failed: " ++ errTxt) (some (joinLines p.1)), p.2.1⟩
        | none =>
          let r := w.main
          let outputs := p.1 ++ [r.stdout]
          if r.returncode = 0 then
            ⟨200, .okBody (pyTitle dt ++ " deployment initiated successfully!")
              (joinLines outputs), p.2.1 ++ [c.command]⟩
          else
            ⟨500, .fail ("Deployment failed: " ++ r.stderr)
              (some (joinLines outputs)), p.2.1 ++ [c.command]⟩

/-! ## List decomposition helpers -/

/-- An occurrence inside `a :: t` is a whole-list occurrence or lies in `t`. -/
theorem infix_cons_split {key : List Char} {a : Char} {t : List Char}
    (h : key <:+: a :: t) : key <+: a :: t ∨ key <:+: t := by
  obtain ⟨s, u, hsu⟩ := h
  cases s with
  | nil => exact Or.inl ⟨u, by simpa using hsu⟩
  | cons x s' =>
    have h' : x :: (s' ++ key ++ u) = a :: t := by simpa using hsu
    injection h' with h1 h2
    exact Or.inr ⟨s', u, h2⟩

/-- A prefix of `a ++ b` is a prefix of `a`, or all of `a` plus a prefix
of `b`. -/
theorem pfx_append_split {p a b : List Char} (h : p <+: a ++ b) :
    p <+: a ∨ ∃ q, p = a ++ q ∧ q <+: b := by
  induction a generalizing p with
  | nil => exact Or.inr ⟨p, rfl, by simpa using h⟩
  | cons x a' ih =>
    cases p with
    | nil => exact Or.inl List.nil_prefix
    | cons y p' =>
      rw [List.cons_append] at h
      obtain ⟨rfl, hp⟩ := List.cons_prefix_cons.mp h
      rcases ih hp with h1 | ⟨q, rfl, hq⟩
      · exact Or.inl (List.cons_prefix_cons.mpr ⟨rfl, h1⟩)
      · exact Or.inr ⟨q, by simp, hq⟩

/-- An occurrence inside `a ++ b` lies in `a`, lies in `b`, or spans the
border: a non-empty suffix of `a` followed by a non-empty prefix of `b`. -/
theorem infix_append_split {key : List Char} :
    ∀ {a b : List Char}, key <:+: a ++ b →
      key <:+: a ∨ key <:+: b ∨
        ∃ k1 k2, key = k1 ++ k2 ∧ k1 ≠ [] ∧ k2 ≠ [] ∧ k1 <:+ a ∧ k2 <+: b := by
  intro a
  induction a with
  | nil => intro b h; exact Or.inr (Or.inl (by simpa using h))
  | cons x a' ih =>
    intro b h
    rw [List.cons_append] at h
    rcases infix_cons_split h with hpre | htail
    · rcases pfx_append_split (p := key) (a := x :: a') (b := b)
        (by simpa using hpre) with h1 | ⟨q, rfl, hq⟩
      · exact Or.inl h1.isInfix
      · cases q with
        | nil => exact Or.inl (by simp)
        | cons z q' =>
          exact Or.inr (Or.inr ⟨x :: a', z :: q', rfl, by simp, by simp,
            List.suffix_refl _, hq⟩)
    · rcases ih htail with h1 | h2 | ⟨k1, k2, hkey, hk1, hk2, hsuf, hpre2⟩
      · exact Or.inl (List.infix_cons h1)
      · exact Or.inr (Or.inl h2)
      · exact Or.inr (Or.inr ⟨k1, k2, hkey, hk1, hk2,
          hsuf.trans (List.suffix_cons x a'), hpre2⟩)

/-- A non-empty infix of `***` contains `*`. -/
theorem star_mem_of_infix_stars {key : List Char} (hk : key ≠ [])
    (h : key <:+: stars) : '*' ∈ key := by
  cases key with
  | nil => exact absurd rfl hk
  | cons c ks =>
    have hc : c ∈ stars := h.subset (List.mem_cons_self c ks)
    have hc' : c = '*' := by simpa [stars] using hc
    simp [hc']

/-- A non-empty suffix of `***` contains `*`. -/
theorem star_mem_of_suffix_stars {k1 : List Char} (hk : k1 ≠ [])
    (h : k1 <:+ stars) : '*' ∈ k1 :=
  star_mem_of_infix_stars hk h.isInfix

/-- A non-empty prefix of `*** ++ R` starts with `*`. -/
theorem star_mem_of_pfx_stars_append {k2 R : List Char} (hk : k2 ≠ [])
    (h : k2 <+: stars ++ R) : '*' ∈ k2 := by
  cases k2 with
  | nil => exact absurd rfl hk
  | cons z k2' =>
    have h' : z :: k2' <+: '*' :: (['*', '*'] ++ R) := by simpa [stars] using h
    obtain ⟨hz, -⟩ := List.cons_prefix_cons.mp h'
    simp [hz]

/-! ## Masking scanner lemmas

The output of `scanGo stars m fuel l` is an interleaving of contiguous
pieces of `l` with `***` blocks, so any star-free prefix of the output is a
prefix of the input, and scanning cannot create a new star-free occurrence. -/

/-- Scanning the empty list yields the empty list. -/
theorem scanGo_nil (rep : List Char) (m : List Char → Option (List Char × Nat))
    (fuel : Nat) : scanGo rep m fuel [] = [] := by
  cases fuel <;> rfl

/-- Unfolding `scanGo` at a match. -/
theorem scanGo_some {m : List Char → Option (List Char × Nat)}
    {c : Char} {rest capt : List Char} {k : Nat} (rep : List Char) (fuel : Nat)
    (hm : m (c :: rest) = some (capt, k)) :
    scanGo rep m (fuel + 1) (c :: rest) =
      capt ++ rep ++ scanGo rep m fuel (rest.drop k) := by
  simp [scanGo, hm]

/-- Unfolding `scanGo` at a non-match. -/
theorem scanGo_none {m : List Char → Option (List Char × Nat)}
    {c : Char} {rest : List Char} (rep : List Char) (fuel : Nat)
    (hm : m (c :: rest) = none) :
    scanGo rep m (fuel + 1) (c :: rest) = c :: scanGo rep m fuel rest := by
  simp [scanGo, hm]

/-- A star-free prefix of the scan output is a prefix of the input. -/
theorem scanGo_pfx {m : List Char → Option (List Char × Nat)}
    (Hm : ∀ l capt k, m l = some (capt, k) → capt <+: l) :
    ∀ fuel l p, l.length ≤ fuel → '*' ∉ p →
      p <+: scanGo stars m fuel l → p <+: l := by
  intro fuel
  induction fuel with
  | zero =>
    intro l p hl hp hpre
    have hnil : l = [] := List.length_eq_zero.mp (Nat.le_zero.mp hl)
    subst hnil
    rwa [scanGo_nil] at hpre
  | succ fuel ih =>
    intro l p hl hp hpre
    cases l with
    | nil => rwa [scanGo_nil] at hpre
    | cons c rest =>
      cases hm : m (c :: rest) with
      | none =>
        rw [scanGo_none stars fuel hm] at hpre
        cases p with
        | nil => exact List.nil_prefix
        | cons y p' =>
          obtain ⟨rfl, hp'⟩ := List.cons_prefix_cons.mp hpre
          have hres : p' <+: rest :=
            ih rest p' (by simpa using hl) (fun hmem => hp (List.mem_cons_of_mem _ hmem)) hp'
          exact List.cons_prefix_cons.mpr ⟨rfl, hres⟩
      | some ck =>
        obtain ⟨capt, k⟩ := ck
        rw [scanGo_some stars fuel hm, List.append_assoc] at hpre
        rcases pfx_append_split hpre with h1 | ⟨q, rfl, hq⟩
        · exact h1.trans (Hm _ _ _ hm)
        · cases q with
          | nil =>
            exact (by simp : capt ++ [] <+: capt).trans (Hm _ _ _ hm)
          | cons z q' =>
            exact absurd (List.mem_append_right capt
              (star_mem_of_pfx_stars_append (by simp) hq)) hp

/-- Scanning preserves the absence of a star-free occurrence. -/
theorem scanGo_keep {m : List Char → Option (List Char × Nat)}
    (Hm : ∀ l capt k, m l = some (capt, k) → capt <+: l)
    {key : List Char} (hk : key ≠ []) (hs : '*' ∉ key) :
    ∀ fuel l, l.length ≤ fuel → ¬ key <:+: l →
      ¬ key <:+: scanGo stars m fuel l := by
  intro fuel
  induction fuel with
  | zero =>
    intro l hl h0
    have hnil : l = [] := List.length_eq_zero.mp (Nat.le_zero.mp hl)
    subst hnil
    rwa [scanGo_nil]
  | succ fuel ih =>
    intro l hl h0 hbad
    cases l with
    | nil =>
      rw [scanGo_nil] at hbad
      exact h0 hbad
    | cons c rest =>
      cases hm : m (c :: rest) with
      | none =>
        rw [scanGo_none stars fuel hm] at hbad
        rcases infix_cons_split hbad with hpre | htail
        · have hpre' : key <+: scanGo stars m (fuel + 1) (c :: rest) := by
            rw [scanGo_none stars fuel hm]; exact hpre
          have : key <+: c :: rest :=
            scanGo_pfx Hm (fuel + 1) (c :: rest) key hl hs hpre'
          exact h0 this.isInfix
        · exact ih rest (by simpa using hl)
            (fun hmem => h0 (List.infix_cons hmem)) htail
      | some ck =>
        obtain ⟨capt, k⟩ := ck
        rw [scanGo_some stars fuel hm, List.append_assoc] at hbad
        rcases infix_append_split hbad with h1 | h2 | ⟨k1, k2, hkey, hk1, hk2, hsuf, hpre2⟩
        · exact h0 (h1.trans (Hm _ _ _ hm).isInfix)
        · rcases infix_append_split h2 with h3 | h4 | ⟨k1, k2, hkey, hk1, hk2, hsuf, hpre2⟩
          · exact hs (star_mem_of_infix_stars hk h3)
          · have hsub : ¬ key <:+: rest.drop k := by
              intro hin
              exact h0 (hin.trans ((List.drop_suffix k rest).trans
                (List.suffix_cons c rest)).isInfix)
            exact ih (rest.drop k) (by simp at hl ⊢; omega) hsub h4
          · exact hs (hkey ▸ List.mem_append_left k2 (star_mem_of_suffix_stars hk1 hsuf))
        · exact hs (hkey ▸ List.mem_append_right k1
            (star_mem_of_pfx_stars_append hk2 hpre2))

/-- `str.replace(key, '***')` leaves no occurrence of a star-free key. -/
theorem scanGo_matchKey_no_occ {k : Char} {ks : List Char} (hs : '*' ∉ k :: ks) :
    ∀ fuel l, l.length ≤ fuel →
      ¬ (k :: ks) <:+: scanGo stars (matchKey k ks) fuel l := by
  have Hm : ∀ l capt n, matchKey k ks l = some (capt, n) → capt <+: l := by
    intro l capt n hm
    unfold matchKey at hm
    split at hm
    · cases hm; exact List.nil_prefix
    · cases hm
  intro fuel
  induction fuel with
  | zero =>
    intro l hl hbad
    have hnil : l = [] := List.length_eq_zero.mp (Nat.le_zero.mp hl)
    subst hnil
    rw [scanGo_nil] at hbad
    simp at hbad
  | succ fuel ih =>
    intro l hl hbad
    cases l with
    | nil =>
      rw [scanGo_nil] at hbad
      simp at hbad
    | cons c rest =>
      cases hm : matchKey k ks (c :: rest) with
      | none =>
        rw [scanGo_none stars fuel hm] at hbad
        rcases infix_cons_split hbad with hpre | htail
        · have hpre' : (k :: ks) <+: scanGo stars (matchKey k ks) (fuel + 1) (c :: rest) := by
            rw [scanGo_none stars fuel hm]; exact hpre
          have hpfx : (k :: ks) <+: c :: rest :=
            scanGo_pfx Hm (fuel + 1) (c :: rest) (k :: ks) hl hs hpre'
          have hb : (k :: ks).isPrefixOf (c :: rest) = true :=
            List.isPrefixOf_iff_prefix.mpr hpfx
          unfold matchKey at hm
          rw [hb] at hm
          simp at hm
        · exact ih rest (by simpa using hl) htail
      | some ck =>
        obtain ⟨capt, n⟩ := ck
        have hcapt : capt = [] := by
          unfold matchKey at hm
          split at hm
          · cases hm; rfl
          · cases hm
        subst hcapt
        rw [scanGo_some stars fuel hm] at hbad
        simp only [List.nil_append] at hbad
        rcases infix_append_split hbad with h1 | h2 | ⟨k1, k2, hkey, hk1, hk2, hsuf, hpre2⟩
        · exact hs (star_mem_of_infix_stars (by simp) h1)
        · exact ih (rest.drop n) (by simp at hl ⊢; omega) h2
        · exact hs (hkey ▸ List.mem_append_left k2 (star_mem_of_suffix_stars hk1 hsuf))

/-- The group `\1` returned by `match1` is a prefix of the scanned suffix. -/
theorem match1_capt_pfx : ∀ l capt k, match1 l = some (capt, k) → capt <+: l := by
  intro l capt k hm
  have happ : ∀ (X t : List Char), X <+: t → lit1 ++ X <+: lit1 ++ t := by
    rintro X t ⟨u, hu⟩
    exact ⟨u, by rw [List.append_assoc, hu]⟩
  unfold match1 at hm
  split at hm
  case isFalse => simp at hm
  case isTrue hpf =>
    obtain ⟨t, ht⟩ := List.isPrefixOf_iff_prefix.mp hpf
    have hdrop : l.drop 10 = t := by
      rw [← ht]
      exact List.drop_left' (by decide)
    dsimp only at hm
    split at hm
    · simp at hm
    · split at hm
      · split at hm
        · split at hm
          · rename_i j _ _
            rw [Option.some.injEq, Prod.mk.injEq] at hm
            obtain ⟨hcapt, -⟩ := hm
            subst hcapt
            rw [hdrop, ← ht]
            exact happ _ _ ((List.take_prefix j _).trans (List.takeWhile_prefix wsEq))
          · simp at hm
        · simp at hm
      · rw [Option.some.injEq, Prod.mk.injEq] at hm
        obtain ⟨hcapt, -⟩ := hm
        subst hcapt
        rw [hdrop, ← ht]
        exact happ _ _ (List.takeWhile_prefix wsEq)

/-- The group `\1` returned by `match2` is a prefix of the scanned suffix. -/
theorem match2_capt_pfx : ∀ l capt k, match2 l = some (capt, k) → capt <+: l := by
  intro l capt k hm
  unfold match2 at hm
  split at hm
  case isFalse => simp at hm
  case isTrue hpf =>
    obtain ⟨t, ht⟩ := List.isPrefixOf_iff_prefix.mp hpf
    have hdrop : l.drop 8 = t := by
      rw [← ht]
      exact List.drop_left' (by decide)
    rw [hdrop] at hm
    cases t with
    | nil => simp [match2Tail] at hm
    | cons sep rest2 =>
      simp only [match2Tail] at hm
      split at hm
      · cases rest2 with
        | nil => simp [match2Rest] at hm
        | cons q rest3 =>
          simp only [match2Rest] at hm
          split at hm
          · split at hm
            · simp at hm
            · rw [Option.some.injEq, Prod.mk.injEq] at hm
              obtain ⟨hcapt, -⟩ := hm
              subst hcapt
              rw [← ht]
              exact ⟨rest3, by simp⟩
          · split at hm
            · simp at hm
            · rw [Option.some.injEq, Prod.mk.injEq] at hm
              obtain ⟨hcapt, -⟩ := hm
              subst hcapt
              rw [← ht]
              exact ⟨q :: rest3, by simp⟩
      · simp at hm

/-- Masking completeness: a non-empty credential that does not contain the
character `*` cannot survive `mask_secrets` as a substring.  (A credential
containing `*` can survive, because the replacement text `***` reintroduces
it; see the `C6` counterexample.) -/
theorem mask_secrets_no_key {apiKey cmd : String} (h1 : apiKey ≠ "")
    (h2 : '*' ∉ apiKey.data) :
    ¬ apiKey.data <:+: (mask_secrets apiKey cmd).data := by
  obtain ⟨d⟩ := apiKey
  cases d with
  | nil => exact absurd rfl h1
  | cons k ks =>
    intro hbad
    have hstep1 : ¬ (k :: ks) <:+: (pyReplace ⟨k :: ks⟩ "***" cmd).data := by
      show ¬ (k :: ks) <:+: scanGo stars (matchKey k ks) cmd.data.length cmd.data
      exact scanGo_matchKey_no_occ h2 _ _ le_rfl
    have hstep2 : ¬ (k :: ks) <:+:
        scanGo stars match1 (pyReplace ⟨k :: ks⟩ "***" cmd).data.length
          (pyReplace ⟨k :: ks⟩ "***" cmd).data :=
      scanGo_keep match1_capt_pfx (by simp) h2 _ _ le_rfl hstep1
    have hstep3 := scanGo_keep match2_capt_pfx (by simp) h2
      (scanGo stars match1 (pyReplace ⟨k :: ks⟩ "***" cmd).data.length
        (pyReplace ⟨k :: ks⟩ "***" cmd).data).length
      (scanGo stars match1 (pyReplace ⟨k :: ks⟩ "***" cmd).data.length
        (pyReplace ⟨k :: ks⟩ "***" cmd).data) le_rfl hstep2
    exact hstep3 hbad

/-! ## Event-kind helper lemmas -/

/-- Queue messages only ever surface as `output` or `error` events. -/
theorem qmsgEvent_ty (q : QMsg) :
    (qmsgEvent q).ty = "output" ∨ (qmsgEvent q).ty = "error" := by
  cases q <;> simp [qmsgEvent]

/-- Events of the pre-command phase are `section`, `command`, `output` or
`error` — never `success` or `complete`. -/
theorem preRun_ty (out : Nat → CmdOutcome) (total : Nat) :
    ∀ pres i e, e ∈ (preRun out total i pres).events →
      e.ty = "section" ∨ e.ty = "command" ∨ e.ty = "output" ∨ e.ty = "error" := by
  intro pres
  induction pres with
  | nil => intro i e he; simp [preRun] at he
  | cons cmd rest ih =>
    intro i e he
    unfold preRun at he
    dsimp only at he
    split at he <;>
      simp only [List.mem_append, List.mem_cons, List.mem_map,
        List.not_mem_nil, or_false] at he
    · rcases he with ((he | he) | ⟨ln, -, he⟩) | he
      · left; rw [he]
      · right; left; rw [he]
      · right; right; left; rw [← he]
      · exact ih (i + 1) e he
    · rcases he with ((he | he) | ⟨ln, -, he⟩) | he | he
      · left; rw [he]
      · right; left; rw [he]
      · right; right; left; rw [← he]
      · right; right; right; rw [he]
      · right; right; right; rw [he]

/-- Events of one poll step are `pods` or `pod`. -/
theorem pollEvents_ty (lastPod : String) (res : Option String) :
    ∀ e ∈ (pollEvents lastPod res).1, e.ty = "pods" ∨ e.ty = "pod" := by
  intro e he
  unfold pollEvents at he
  cases res with
  | none => simp at he
  | some s =>
    dsimp only at he
    split at he
    · simp only [List.mem_cons, List.mem_map] at he
      rcases he with he | ⟨ln, -, he⟩
      · left; rw [he]; rfl
      · right; rw [← he]
    · simp at he

/-- Events emitted inside the monitoring loop are `output`, `error`,
`pods`, `pod` or `info` — never `success` or `complete`. -/
theorem monitorLoop_ty (sched : Nat → IterObs) (ns : String) :
    ∀ fuel i counter lastPod e,
      e ∈ (monitorLoop sched ns fuel i counter lastPod).events →
      e.ty = "output" ∨ e.ty = "error" ∨ e.ty = "pods" ∨ e.ty = "pod" ∨ e.ty = "info" := by
  have hq : ∀ (e : Event) (qs : List QMsg), e ∈ qs.map qmsgEvent →
      e.ty = "output" ∨ e.ty = "error" := by
    intro e qs he
    simp only [List.mem_map] at he
    obtain ⟨q, -, he⟩ := he
    rcases qmsgEvent_ty q with h | h
    · left; rw [← he]; exact h
    · right; rw [← he]; exact h
  intro fuel
  induction fuel with
  | zero => intro i counter lastPod e he; simp [monitorLoop] at he
  | succ fuel ih =>
    intro i counter lastPod e he
    unfold monitorLoop at he
    dsimp only at he
    split at he
    · rcases hq e _ he with h | h
      · exact Or.inl h
      · exact Or.inr (Or.inl h)
    · split at he
      · simp only [List.mem_append, List.mem_cons, List.not_mem_nil, or_false] at he
        rcases he with (he | he) | he
        · rcases hq e _ he with h | h
          · exact Or.inl h
          · exact Or.inr (Or.inl h)
        · rcases pollEvents_ty _ _ e he with h | h
          · exact Or.inr (Or.inr (Or.inl h))
          · exact Or.inr (Or.inr (Or.inr (Or.inl h)))
        · rw [he]; exact Or.inr (Or.inr (Or.inr (Or.inr rfl)))
      · simp only [List.mem_append] at he
        rcases he with (he | he) | he
        · rcases hq e _ he with h | h
          · exact Or.inl h
          · exact Or.inr (Or.inl h)
        · rcases pollEvents_ty _ _ e he with h | h
          · exact Or.inr (Or.inr (Or.inl h))
          · exact Or.inr (Or.inr (Or.inr (Or.inl h)))
        · exact ih _ _ _ e he

/-- Events of the failure report are all `error` events. -/
theorem failTail_ty (rc : Option Int) (txt : String) :
    ∀ e ∈ failTail rc txt, e.ty = "error" := by
  intro e he
  unfold failTail at he
  simp only [List.mem_cons] at he
  rcases he with he | he
  · rw [he]
  · split at he
    · simp only [List.mem_map] at he
      obtain ⟨ln, -, he⟩ := he
      rw [← he]
    · simp at he

/-- Events of the log-source loop are `info`, `log` or `error`. -/
theorem logSourceEvents_ty (ver : String) (logRun : Nat → Except String String) :
    ∀ srcs i e, e ∈ (logSourceEvents ver logRun i srcs).1 →
      e.ty = "info" ∨ e.ty = "log" ∨ e.ty = "error" := by
  intro srcs
  induction srcs with
  | nil => intro i e he; simp [logSourceEvents] at he
  | cons src rest ih =>
    intro i e he
    unfold logSourceEvents at he
    dsimp only at he
    simp only [List.mem_cons, List.mem_append] at he
    rcases he with (he | he) | he
    · left; rw [he]
    · split at he
      · simp only [List.mem_map] at he
        obtain ⟨ln, -, he⟩ := he
        right; left; rw [← he]
      · simp only [List.mem_cons, List.not_mem_nil, or_false] at he
        right; right; rw [he]
    · exact ih (i + 1) e he

/-! ## Pre-command phase structure -/

/-- When every pre-command exits 0, the phase completes with `ok = true`
and executes every pre-command in order. -/
theorem preRun_all_zero (out : Nat → CmdOutcome) (total : Nat) :
    ∀ pres i, (∀ j, j < pres.length → (out (i + j)).returncode = 0) →
      (preRun out total i pres).ok = true ∧
      (preRun out total i pres).executed = pres := by
  intro pres
  induction pres with
  | nil => intro i _; constructor <;> rfl
  | cons cmd rest ih =>
    intro i hz
    have h0 : (out i).returncode = 0 := by
      have := hz 0 (by simp)
      simpa using this
    have hrest := ih (i + 1) (fun j hj => by
      have h := hz (j + 1) (by simpa using Nat.succ_lt_succ hj)
      have harg : i + 1 + j = i + (j + 1) := by omega
      rw [harg]
      exact h)
    unfold preRun
    dsimp only
    rw [if_pos h0]
    exact ⟨hrest.1, by rw [hrest.2]⟩

/-- When pre-command `fi` is the first to exit nonzero, the phase emits its
events followed by exactly the two `error` events (exit code, captured
output), aborts with `ok = false`, and executes exactly the first `fi + 1`
pre-commands. -/
theorem preRun_first_fail (out : Nat → CmdOutcome) (total : Nat) :
    ∀ pres i fi, fi < pres.length →
      (∀ j, j < fi → (out (i + j)).returncode = 0) →
      (out (i + fi)).returncode ≠ 0 →
      ∃ E, preRun out total i pres = ⟨E ++
          [Event.mk "error" (some ("Pre-command failed with exit code " ++
             toString (out (i + fi)).returncode)),
           Event.mk "error" (some (out (i + fi)).stdout)],
        pres.take (fi + 1), false⟩ := by
  intro pres
  induction pres with
  | nil => intro i fi hfi; simp at hfi
  | cons cmd rest ih =>
    intro i fi hfi hz hf
    cases fi with
    | zero =>
      rw [Nat.add_zero] at hf
      refine ⟨[Event.mk "section" (some ("Pre-command " ++ toString (i + 1) ++ "/" ++ toString total)),
               Event.mk "command" (some cmd)] ++
              (out i).lines.map (fun ln => Event.mk "output" (some (pyRstrip ln))), ?_⟩
      unfold preRun
      dsimp only
      rw [if_neg hf, Nat.add_zero]
      simp
    | succ fi =>
      have h0 : (out i).returncode = 0 := by
        have := hz 0 (Nat.succ_pos fi)
        simpa using this
      have hz' : ∀ j, j < fi → (out (i + 1 + j)).returncode = 0 := fun j hj => by
        have h := hz (j + 1) (Nat.succ_lt_succ hj)
        have harg : i + 1 + j = i + (j + 1) := by omega
        rw [harg]
        exact h
      have hf' : (out (i + 1 + fi)).returncode ≠ 0 := by
        have harg : i + 1 + fi = i + (fi + 1) := by omega
        rw [harg]
        exact hf
      obtain ⟨E, hE⟩ := ih (i + 1) fi (by simpa using Nat.lt_of_succ_lt_succ hfi) hz' hf'
      rw [show i + 1 + fi = i + (fi + 1) from by omega] at hE
      refine ⟨[Event.mk "section" (some ("Pre-command " ++ toString (i + 1) ++ "/" ++ toString total)),
               Event.mk "command" (some cmd)] ++
              (out i).lines.map (fun ln => Event.mk "output" (some (pyRstrip ln))) ++ E, ?_⟩
      unfold preRun
      dsimp only
      rw [if_pos h0, hE]
      simp

/-! ## Unfolding `generate` -/

/-- Shape of the stream when the request reaches the main phase. -/
theorem generate_main_events (apiKey version dt : String) (c : DeployConfig)
    (w : World) (hk : apiKey ≠ "")
    (hok : (preRun w.pre c.pre_commands.length 0 c.pre_commands).ok = true) :
    (generate apiKey version (some (dt, c)) w).events =
      Event.mk "start" (some ("Starting " ++ dt ++ " deployment...")) ::
      (preRun w.pre c.pre_commands.length 0 c.pre_commands).events ++
      Event.mk "section" (some "Main Deployment") :: Event.mk "command" (some c.command) ::
      (runLoop w.sched c.nspace).events ++ w.finalDrain.map qmsgEvent ++
      (if w.finalRC = some 0 then
        (successTail c (if version = "" then c.default_version else version) w.logRun).1
       else failTail w.finalRC w.finalStdout) := by
  unfold generate
  rw [if_neg hk]
  dsimp only
  rw [hok, if_pos rfl]
  split <;> rfl

/-- Shape of the stream and of the execution trace when a pre-command
fails: the start event, the pre-phase events, and nothing else; only the
pre-commands attempted so far were executed. -/
theorem generate_pre_abort (apiKey version dt : String) (c : DeployConfig)
    (w : World) (hk : apiKey ≠ "")
    (hok : (preRun w.pre c.pre_commands.length 0 c.pre_commands).ok = false) :
    generate apiKey version (some (dt, c)) w =
      ⟨Event.mk "start" (some ("Starting " ++ dt ++ " deployment...")) ::
         (preRun w.pre c.pre_commands.length 0 c.pre_commands).events,
       (preRun w.pre c.pre_commands.length 0 c.pre_commands).executed⟩ := by
  unfold generate
  rw [if_neg hk]
  dsimp only
  rw [hok, if_neg (by simp)]

/-! ## Monitoring loop lemmas -/

/-- The loop always exits through one of its breaks within 62 iterations:
the soft deadline (`5 * 61 = 305 > 300`) fires during iteration 61 at the
latest, so fuel is never exhausted and the exit iteration is at most 61. -/
theorem monitorLoop_breaks (sched : Nat → IterObs) (ns : String) :
    ∀ fuel i counter lastPod, 61 < i + fuel → i ≤ 61 →
      (monitorLoop sched ns fuel i counter lastPod).broke = true ∧
      (monitorLoop sched ns fuel i counter lastPod).exitIter ≤ 61 := by
  intro fuel
  induction fuel with
  | zero => intro i counter lastPod h1 h2; omega
  | succ fuel ih =>
    intro i counter lastPod h1 h2
    unfold monitorLoop
    dsimp only
    split
    · exact ⟨rfl, h2⟩
    · split
      · exact ⟨rfl, h2⟩
      · rename_i hto
        have hi : i ≤ 60 := by
          simp only [maxMonitorTime, pollInterval, not_lt] at hto
          omega
        exact ih (i + 1) _ _ (by omega) (by omega)

/-- When the runner's `done` flag is never seen, the loop exits through the
soft timeout during iteration 61, and the informational timeout event is
the last event it emits. -/
theorem monitorLoop_never_done (sched : Nat → IterObs) (ns : String)
    (hnd : ∀ j, (sched j).doneVisible = false) :
    ∀ fuel i counter lastPod, 61 < i + fuel → i ≤ 61 →
      (monitorLoop sched ns fuel i counter lastPod).timedOut = true ∧
      (monitorLoop sched ns fuel i counter lastPod).exitIter = 61 ∧
      (monitorLoop sched ns fuel i counter lastPod).events.getLast? = some infoTimeout := by
  intro fuel
  induction fuel with
  | zero => intro i counter lastPod h1 h2; omega
  | succ fuel ih =>
    intro i counter lastPod h1 h2
    unfold monitorLoop
    dsimp only
    split
    · rename_i hb
      rw [hnd i] at hb
      simp at hb
    · split
      · rename_i hto
        have hi : i = 61 := by
          simp only [maxMonitorTime, pollInterval] at hto
          omega
        refine ⟨rfl, hi, ?_⟩
        exact List.getLast?_concat _
      · rename_i hto
        have hi : i ≤ 60 := by
          simp only [maxMonitorTime, pollInterval, not_lt] at hto
          omega
        have hr := ih (i + 1) (if (sched i).doneVisible = true then counter + 1 else counter)
          (pollEvents lastPod (sched i).poll).2 (by omega) (by omega)
        refine ⟨hr.1, hr.2.1, ?_⟩
        simp [List.getLast?_append, hr.2.2]

/-- Once the `done` flag is visible from iteration `i0` on, the loop exits
during iteration `i0 + 1` at the latest (the stable-iterations counter
reaches 2 after one extra iteration). -/
theorem monitorLoop_done_exit (sched : Nat → IterObs) (ns : String) (i0 : Nat)
    (hd : ∀ j, i0 ≤ j → (sched j).doneVisible = true) (hi0 : i0 ≤ 60) :
    ∀ fuel i counter lastPod, 61 < i + fuel → i ≤ i0 + 1 →
      (i = i0 + 1 → 1 ≤ counter) →
      (monitorLoop sched ns fuel i counter lastPod).broke = true ∧
      (monitorLoop sched ns fuel i counter lastPod).exitIter ≤ i0 + 1 := by
  intro fuel
  induction fuel with
  | zero => intro i counter lastPod h1 h2 h3; omega
  | succ fuel ih =>
    intro i counter lastPod h1 h2 h3
    unfold monitorLoop
    dsimp only
    split
    · exact ⟨rfl, h2⟩
    · rename_i hnb
      split
      · exact ⟨rfl, h2⟩
      · by_cases hii : i = i0 + 1
        · exfalso
          refine hnb ⟨hd i (by omega), ?_⟩
          have := h3 hii
          omega
        · refine ih (i + 1) _ _ (by omega) (by omega) ?_
          intro hip
          have hieq : i = i0 := by omega
          subst hieq
          rw [hd i le_rfl]
          simp

/-! ## Success report structure -/

/-- The success report ends with the `complete` event. -/
theorem successTail_concat (c : DeployConfig) (ver : String)
    (logRun : Nat → Except String String) :
    (successTail c ver logRun).1 =
      (Event.mk "success" (some "Helm install command completed successfully!") ::
       Event.mk "section" (some "Final Status") ::
       (logSourceEvents ver logRun 0 c.log_sources).1) ++
      [Event.mk "complete" none] := by
  unfold successTail
  simp

/-- On the success path the whole stream is a prefix followed by the single
terminal `complete` event. -/
theorem generate_success_events (apiKey version dt : String) (c : DeployConfig)
    (w : World) (hk : apiKey ≠ "")
    (hok : (preRun w.pre c.pre_commands.length 0 c.pre_commands).ok = true)
    (hrc : w.finalRC = some 0) :
    (generate apiKey version (some (dt, c)) w).events =
      (Event.mk "start" (some ("Starting " ++ dt ++ " deployment...")) ::
       (preRun w.pre c.pre_commands.length 0 c.pre_commands).events ++
       Event.mk "section" (some "Main Deployment") :: Event.mk "command" (some c.command) ::
       (runLoop w.sched c.nspace).events ++ w.finalDrain.map qmsgEvent ++
       Event.mk "success" (some "Helm install command completed successfully!") ::
       Event.mk "section" (some "Final Status") ::
       (logSourceEvents (if version = "" then c.default_version else version)
         w.logRun 0 c.log_sources).1) ++
      [Event.mk "complete" none] := by
  rw [generate_main_events apiKey version dt c w hk hok, if_pos hrc, successTail_concat]
  simp [List.append_assoc]

/-- On the failure path (recorded exit code not 0, including the unset
`None`) the stream contains no `complete` event. -/
theorem generate_fail_no_complete (apiKey version dt : String) (c : DeployConfig)
    (w : World) (hk : apiKey ≠ "")
    (hok : (preRun w.pre c.pre_commands.length 0 c.pre_commands).ok = true)
    (hrc : ¬ w.finalRC = some 0) :
    ∀ e ∈ (generate apiKey version (some (dt, c)) w).events, e.ty ≠ "complete" := by
  rw [generate_main_events apiKey version dt c w hk hok, if_neg hrc]
  intro e he
  generalize hF : failTail w.finalRC w.finalStdout = F at he
  simp only [List.mem_cons, List.mem_append] at he
  rcases he with (((h | h) | h | h | h) | h) | h
  · rw [h]; simp
  · rcases preRun_ty w.pre c.pre_commands.length c.pre_commands 0 e h with h' | h' | h' | h' <;>
      (rw [h']; simp)
  · rw [h]; simp
  · rw [h]; simp
  · rcases monitorLoop_ty w.sched c.nspace loopFuel 0 0 "" e h with h' | h' | h' | h' | h' <;>
      (rw [h']; simp)
  · simp only [List.mem_map] at h
    obtain ⟨q, -, h⟩ := h
    rcases qmsgEvent_ty q with h' | h' <;> (rw [← h, h']; simp)
  · rw [failTail_ty w.finalRC w.finalStdout e (hF ▸ h)]; simp

/-- C2 building block: on success the terminal event is `complete` and a
`success` event precedes it. -/
theorem generate_success_terminal (apiKey version dt : String) (c : DeployConfig)
    (w : World) (hk : apiKey ≠ "")
    (hok : (preRun w.pre c.pre_commands.length 0 c.pre_commands).ok = true)
    (hrc : w.finalRC = some 0) :
    (generate apiKey version (some (dt, c)) w).events.getLast? =
      some (Event.mk "complete" none) ∧
    Event.mk "success" (some "Helm install command completed successfully!") ∈
      (generate apiKey version (some (dt, c)) w).events.dropLast := by
  constructor
  · rw [generate_success_events apiKey version dt c w hk hok hrc]
    exact List.getLast?_concat _
  · rw [generate_success_events apiKey version dt c w hk hok hrc, List.dropLast_concat]
    simp

/-! ## Concrete fixtures used by witnesses and counterexamples -/

/-- A minimal configuration: no pre-commands, no log sources. -/
def cfgMin : DeployConfig :=
  ⟨"/app", "NGC_API_KEY", [], "helm install nmp", [], "nemo", ""⟩

/-- A schedule on which the runner's completion is visible immediately. -/
def schedDone : Nat → IterObs := fun _ => ⟨[], true, none⟩

/-- A schedule on which the runner's completion is never visible. -/
def schedNever : Nat → IterObs := fun _ => ⟨[], false, none⟩

/-- A world in which the main command recorded exit code 0. -/
def wOk : World := ⟨fun _ => ⟨0, "", []⟩, schedDone, some 0, "", [], fun _ => .ok ""⟩

/-! ## Claim theorems -/

/-- C2: for every run reaching the main phase, a `complete` event is
emitted iff the recorded exit code is exactly 0; when emitted it is the
final event of the stream and a `success` event precedes it (so on the
failure path no `complete` event is ever emitted). -/
theorem c2_complete_iff_exit_zero (apiKey version dt : String) (c : DeployConfig)
    (w : World) (hk : apiKey ≠ "")
    (hpre : ∀ i, i < c.pre_commands.length → (w.pre i).returncode = 0) :
    ((∃ e ∈ (generate apiKey version (some (dt, c)) w).events, e.ty = "complete") ↔
      w.finalRC = some 0) ∧
    (w.finalRC = some 0 →
      (generate apiKey version (some (dt, c)) w).events.getLast? =
        some (Event.mk "complete" none) ∧
      Event.mk "success" (some "Helm install command completed successfully!") ∈
        (generate apiKey version (some (dt, c)) w).events.dropLast) := by
  have hok := (preRun_all_zero w.pre c.pre_commands.length c.pre_commands 0
    (fun j hj => by
      have h := hpre j hj
      rwa [Nat.zero_add])).1
  constructor
  · constructor
    · rintro ⟨e, he, hc⟩
      by_contra hrc
      exact generate_fail_no_complete apiKey version dt c w hk hok hrc e he hc
    · intro hrc
      refine ⟨Event.mk "complete" none, ?_, rfl⟩
      rw [generate_success_events apiKey version dt c w hk hok hrc]
      simp
  · intro hrc
    exact generate_success_terminal apiKey version dt c w hk hok hrc

/-- Witness for C2 at a concrete successful run. -/
theorem c2_complete_iff_exit_zero_witness :
    ((∃ e ∈ (generate "k" "" (some ("helm", cfgMin)) wOk).events, e.ty = "complete") ↔
      wOk.finalRC = some 0) ∧
    (wOk.finalRC = some 0 →
      (generate "k" "" (some ("helm", cfgMin)) wOk).events.getLast? =
        some (Event.mk "complete" none) ∧
      Event.mk "success" (some "Helm install command completed successfully!") ∈
        (generate "k" "" (some ("helm", cfgMin)) wOk).events.dropLast) :=
  c2_complete_iff_exit_zero "k" "" "helm" cfgMin wOk (by decide)
    (by intro i hi; simp [cfgMin] at hi)

/-- C7: a request with an empty credential is rejected before any command
is executed: the streaming endpoint emits the single `error` event and
stops with an empty execution trace, and the non-streaming endpoint
returns HTTP 400 with the error body and an empty execution trace. -/
theorem c7_empty_credential_rejected (version : String)
    (cfg? : Option (String × DeployConfig)) (w : World)
    (version2 : String) (dryRun envDry : Bool)
    (cfg2? : Option (String × DeployConfig)) (dw : DeployWorld) :
    generate "" version cfg? w =
      ⟨[Event.mk "error" (some "API key is required")], []⟩ ∧
    deploy "" version2 dryRun envDry cfg2? dw =
      ⟨400, RespBody.fail "API key is required" none, []⟩ := by
  constructor <;> rfl

/-- C9: the monitoring loop always terminates through a break; the elapsed
time at exit is at most `max_monitor_time + poll_interval` (300 + 5
seconds) even if the main command never signals completion; and if
completion is visible from iteration `i0` on, the loop exits during
iteration `i0 + 1` at the latest (the stable-iterations counter reaching
2 after one extra iteration). -/
theorem c9_monitor_loop_terminates (sched : Nat → IterObs) (ns : String) :
    ((runLoop sched ns).broke = true ∧
     pollInterval * (runLoop sched ns).exitIter ≤ maxMonitorTime + pollInterval) ∧
    (∀ i0, (∀ j, i0 ≤ j → (sched j).doneVisible = true) →
      (runLoop sched ns).broke = true ∧ (runLoop sched ns).exitIter ≤ i0 + 1) := by
  have hbr := monitorLoop_breaks sched ns loopFuel 0 0 "" (by decide) (by decide)
  unfold runLoop
  constructor
  · refine ⟨hbr.1, ?_⟩
    have h61 := hbr.2
    simp only [pollInterval, maxMonitorTime]
    omega
  · intro i0 hd
    by_cases h60 : i0 ≤ 60
    · exact monitorLoop_done_exit sched ns i0 hd h60 loopFuel 0 0 ""
        (by decide) (by omega) (by omega)
    · exact ⟨hbr.1, Nat.le_trans hbr.2 (by omega)⟩

/-- Witness for C9 at a schedule that reports completion immediately. -/
theorem c9_monitor_loop_terminates_witness :
    ((runLoop schedDone "nemo").broke = true ∧
     pollInterval * (runLoop schedDone "nemo").exitIter ≤ maxMonitorTime + pollInterval) ∧
    (runLoop schedDone "nemo").broke = true ∧
    (runLoop schedDone "nemo").exitIter ≤ 0 + 1 :=
  ⟨(c9_monitor_loop_terminates schedDone "nemo").1,
   (c9_monitor_loop_terminates schedDone "nemo").2 0 (fun _ _ => rfl)⟩

/-- C10: on every execution path of the asynchronous runner — normal exit
or exception while spawning/reading — the shared cell ends with `done`
set and an integer exit code; on an exception the code is 1, the cell
holds the exception text, and a `Command error: ...` message is enqueued. -/
theorem c10_runner_always_finishes (lines : List String) (rest : Except String Int) :
    (run_command_async lines rest).1.done = true ∧
    (run_command_async lines rest).1.returncode.isSome = true ∧
    (∀ e, rest = Except.error e →
      (run_command_async lines rest).1.returncode = some 1 ∧
      (run_command_async lines rest).1.stdout = e ∧
      QMsg.error ("Command error: " ++ e) ∈ (run_command_async lines rest).2) := by
  cases rest with
  | ok rc => exact ⟨rfl, rfl, fun e he => Except.noConfusion he⟩
  | error err =>
    refine ⟨rfl, rfl, fun e he => ?_⟩
    injection he with h
    subst h
    refine ⟨rfl, rfl, ?_⟩
    simp [run_command_async]

/-- Witness for C10 at a concrete exception outcome. -/
theorem c10_runner_always_finishes_witness :
    (run_command_async ["out\n"] (Except.error "boom")).1.done = true ∧
    (run_command_async ["out\n"] (Except.error "boom")).1.returncode = some 1 ∧
    QMsg.error ("Command error: " ++ "boom") ∈
      (run_command_async ["out\n"] (Except.error "boom")).2 := by
  have h := c10_runner_always_finishes ["out\n"] (Except.error "boom")
  exact ⟨h.1, (h.2.2 "boom" rfl).1, (h.2.2 "boom" rfl).2.2⟩

/-- C1: when pre-command `fi` is the first to exit nonzero, the stream is
exactly some prefix followed by the two `error` events (exit code and
captured output) and then ends, and the execution trace is exactly the
first `fi + 1` pre-commands — later pre-commands and the main command are
never handed to the runner. -/
theorem c1_pre_command_failure_aborts (apiKey version dt : String) (c : DeployConfig)
    (w : World) (fi : Nat) (hk : apiKey ≠ "")
    (hfi : fi < c.pre_commands.length)
    (hz : ∀ j, j < fi → (w.pre j).returncode = 0)
    (hf : (w.pre fi).returncode ≠ 0) :
    ∃ E, (generate apiKey version (some (dt, c)) w).events =
        E ++ [Event.mk "error" (some ("Pre-command failed with exit code " ++
                toString (w.pre fi).returncode)),
              Event.mk "error" (some (w.pre fi).stdout)] ∧
      (generate apiKey version (some (dt, c)) w).executed = c.pre_commands.take (fi + 1) := by
  obtain ⟨E, hE⟩ := preRun_first_fail w.pre c.pre_commands.length c.pre_commands 0 fi hfi
    (fun j hj => by
      have h := hz j hj
      rwa [Nat.zero_add])
    (by rwa [Nat.zero_add])
  simp only [Nat.zero_add] at hE
  have hok : (preRun w.pre c.pre_commands.length 0 c.pre_commands).ok = false := by
    rw [hE]
  rw [generate_pre_abort apiKey version dt c w hk hok]
  refine ⟨Event.mk "start" (some ("Starting " ++ dt ++ " deployment...")) :: E, ?_, ?_⟩
  · dsimp only
    rw [hE]
    simp
  · dsimp only
    rw [hE]

/-- A configuration with two pre-commands, used as a C1 witness. -/
def cfgPre : DeployConfig :=
  ⟨"/app", "NGC_API_KEY", ["helm fetch chart", "bad cmd"], "helm install nmp", [], "nemo", ""⟩

/-- A world in which the second pre-command fails with exit code 7. -/
def wPreFail : World :=
  ⟨fun i => if i = 0 then ⟨0, "ok\n", ["ok\n"]⟩ else ⟨7, "boom\n", ["boom\n"]⟩,
   schedNever, none, "", [], fun _ => .ok ""⟩

/-- Witness for C1 at a concrete run whose second pre-command fails. -/
theorem c1_pre_command_failure_aborts_witness :
    ∃ E, (generate "k" "" (some ("helm", cfgPre)) wPreFail).events =
        E ++ [Event.mk "error" (some ("Pre-command failed with exit code " ++
                toString (wPreFail.pre 1).returncode)),
              Event.mk "error" (some (wPreFail.pre 1).stdout)] ∧
      (generate "k" "" (some ("helm", cfgPre)) wPreFail).executed =
        cfgPre.pre_commands.take (1 + 1) :=
  c1_pre_command_failure_aborts "k" "" "helm" cfgPre wPreFail 1 (by decide) (by decide)
    (by
      intro j hj
      have hj0 : j = 0 := by omega
      subst hj0
      decide)
    (by decide)

/-- The failure report has the same shape whether or not the captured
output is empty: the `if error_output` guard only skips an empty loop. -/
theorem failTail_eq (rc : Option Int) (txt : String) :
    failTail rc txt =
      Event.mk "error" (some ("Deployment failed with exit code " ++ rcStr rc)) ::
      ((lastN 20 (pySplitNl txt)).filter (fun ln => pyStrip ln ≠ "")).map
        (fun ln => Event.mk "error" (some ln)) := by
  unfold failTail
  by_cases h : txt = ""
  · subst h
    rw [if_neg (by simp)]
    have hmap : ((lastN 20 (pySplitNl "")).filter (fun ln => pyStrip ln ≠ "")).map
        (fun ln => Event.mk "error" (some ln)) = [] := by decide
    rw [hmap]
  · rw [if_pos h]

/-- The non-blank lines among the last `n` raw lines form a suffix of the
last `n` non-blank lines. -/
theorem filter_lastN_suffix (p : α → Bool) (n : Nat) (xs : List α) :
    (lastN n xs).filter p <:+ lastN n (xs.filter p) := by
  have hb : ((xs.drop (xs.length - n)).filter p).length ≤ n := by
    have h1 := List.length_filter_le p (xs.drop (xs.length - n))
    rw [List.length_drop] at h1
    omega
  have hsplit : xs.filter p =
      (xs.take (xs.length - n)).filter p ++ (xs.drop (xs.length - n)).filter p := by
    rw [← List.filter_append, List.take_append_drop]
  unfold lastN
  rw [hsplit]
  have hk : ((xs.take (xs.length - n)).filter p ++ (xs.drop (xs.length - n)).filter p).length - n ≤
      ((xs.take (xs.length - n)).filter p).length := by
    rw [List.length_append]
    omega
  rw [List.drop_append_of_le_length hk]
  exact List.suffix_append _ _

/-- C3: when the main command records a nonzero exit code, the stream ends
with one `error` event stating the exit code followed by one `error` event
per non-blank line among the last 20 raw lines of the captured output —
at most 20 events, and a suffix of the last 20 non-blank lines — however
long the captured output is. -/
theorem c3_failure_last20_lines (apiKey version dt : String) (c : DeployConfig)
    (w : World) (rc : Int) (hk : apiKey ≠ "")
    (hpre : ∀ i, i < c.pre_commands.length → (w.pre i).returncode = 0)
    (hrc : w.finalRC = some rc) (hne : rc ≠ 0) :
    (∃ P, (generate apiKey version (some (dt, c)) w).events =
        P ++ Event.mk "error" (some ("Deployment failed with exit code " ++ toString rc)) ::
          ((lastN 20 (pySplitNl w.finalStdout)).filter (fun ln => pyStrip ln ≠ "")).map
            (fun ln => Event.mk "error" (some ln))) ∧
    ((lastN 20 (pySplitNl w.finalStdout)).filter (fun ln => pyStrip ln ≠ "")).length ≤ 20 ∧
    (lastN 20 (pySplitNl w.finalStdout)).filter (fun ln => pyStrip ln ≠ "") <:+
      lastN 20 ((pySplitNl w.finalStdout).filter (fun ln => pyStrip ln ≠ "")) := by
  have hok := (preRun_all_zero w.pre c.pre_commands.length c.pre_commands 0
    (fun j hj => by
      have h := hpre j hj
      rwa [Nat.zero_add])).1
  have hnot : ¬ w.finalRC = some 0 := by
    rw [hrc]
    intro hcontra
    exact hne (by injection hcontra)
  refine ⟨?_, ?_, ?_⟩
  · refine ⟨Event.mk "start" (some ("Starting " ++ dt ++ " deployment...")) ::
      (preRun w.pre c.pre_commands.length 0 c.pre_commands).events ++
      Event.mk "section" (some "Main Deployment") :: Event.mk "command" (some c.command) ::
      (runLoop w.sched c.nspace).events ++ w.finalDrain.map qmsgEvent, ?_⟩
    rw [generate_main_events apiKey version dt c w hk hok, if_neg hnot, failTail_eq, hrc]
    simp [rcStr, List.append_assoc]
  · calc ((lastN 20 (pySplitNl w.finalStdout)).filter (fun ln => pyStrip ln ≠ "")).length
        ≤ (lastN 20 (pySplitNl w.finalStdout)).length := List.length_filter_le _ _
      _ ≤ 20 := by
        unfold lastN
        rw [List.length_drop]
        omega
  · exact filter_lastN_suffix _ 20 _

/-- A world whose main command failed with exit code 5 and 25 output
lines, of which two are blank. -/
def wFail : World :=
  ⟨fun _ => ⟨0, "", []⟩, schedDone, some 5,
   joinLines ((List.range 23).map (fun i => "line" ++ toString i) ++ ["", " ", "last"]),
   [], fun _ => .ok ""⟩

/-- Witness for C3 at a concrete failing run with 26 output lines. -/
theorem c3_failure_last20_lines_witness :
    (∃ P, (generate "k" "" (some ("helm", cfgMin)) wFail).events =
        P ++ Event.mk "error" (some ("Deployment failed with exit code " ++ toString (5 : Int))) ::
          ((lastN 20 (pySplitNl wFail.finalStdout)).filter (fun ln => pyStrip ln ≠ "")).map
            (fun ln => Event.mk "error" (some ln))) ∧
    ((lastN 20 (pySplitNl wFail.finalStdout)).filter (fun ln => pyStrip ln ≠ "")).length ≤ 20 ∧
    (lastN 20 (pySplitNl wFail.finalStdout)).filter (fun ln => pyStrip ln ≠ "") <:+
      lastN 20 ((pySplitNl wFail.finalStdout).filter (fun ln => pyStrip ln ≠ "")) :=
  c3_failure_last20_lines "k" "" "helm" cfgMin wFail 5 (by decide)
    (by intro i hi; simp [cfgMin] at hi) (by decide) (by decide)

/-- A world whose main command never completes (soft-timeout scenario, the
run state still unset after the join). -/
def wNever : World := ⟨fun _ => ⟨0, "", []⟩, schedNever, none, "", [], fun _ => .ok ""⟩

/-- Counterexample to C4 as stated: when the soft deadline fires while the
main command has not completed and the command is still unfinished after
the join, the stream ends with `error "Deployment failed with exit code
None"` and no `complete` event — the deployment is reported as failed,
refuting "this condition alone does not cause the deployment to be
reported as failed". -/
theorem c4_counterexample :
    (generate "k" "" (some ("helm", cfgMin)) wNever).events =
      [Event.mk "start" (some "Starting helm deployment..."),
       Event.mk "section" (some "Main Deployment"),
       Event.mk "command" (some "helm install nmp"),
       infoTimeout,
       Event.mk "error" (some "Deployment failed with exit code None")] ∧
    (∀ e ∈ (generate "k" "" (some ("helm", cfgMin)) wNever).events, e.ty ≠ "complete") := by
  constructor <;> decide

/-- C4 (amended): when the soft deadline fires while the main command has
not completed, the loop emits the informational timeout event as its last
event and exits via the timeout; the timeout itself does not decide the
outcome — if the command still completes with exit code 0 during the
10-second join, the stream ends with `complete` as usual — but if the
command remains unfinished (recorded exit code `None`), an `error` event
`Deployment failed with exit code None` is emitted. -/
theorem c4_amended_soft_timeout (apiKey version dt : String) (c : DeployConfig)
    (w : World) (hk : apiKey ≠ "")
    (hpre : ∀ i, i < c.pre_commands.length → (w.pre i).returncode = 0)
    (hnd : ∀ j, (w.sched j).doneVisible = false) :
    (runLoop w.sched c.nspace).timedOut = true ∧
    (runLoop w.sched c.nspace).events.getLast? = some infoTimeout ∧
    (w.finalRC = some 0 →
      (generate apiKey version (some (dt, c)) w).events.getLast? =
        some (Event.mk "complete" none)) ∧
    (w.finalRC = none →
      Event.mk "error" (some "Deployment failed with exit code None") ∈
        (generate apiKey version (some (dt, c)) w).events) := by
  have hok := (preRun_all_zero w.pre c.pre_commands.length c.pre_commands 0
    (fun j hj => by
      have h := hpre j hj
      rwa [Nat.zero_add])).1
  have hloop := monitorLoop_never_done w.sched c.nspace hnd loopFuel 0 0 ""
    (by decide) (by decide)
  refine ⟨hloop.1, hloop.2.2, ?_, ?_⟩
  · intro hrc
    exact (generate_success_terminal apiKey version dt c w hk hok hrc).1
  · intro hrc
    rw [generate_main_events apiKey version dt c w hk hok,
      if_neg (by rw [hrc]; simp), failTail_eq, hrc]
    simp [rcStr]

/-- A world whose main command finishes with exit code 0 only during the
10-second join, after the monitoring loop timed out. -/
def wLateOk : World := ⟨fun _ => ⟨0, "", []⟩, schedNever, some 0, "", [], fun _ => .ok ""⟩

/-- Witness for the amended C4 at a run that times out and then records
exit code 0 during the join. -/
theorem c4_amended_soft_timeout_witness :
    (runLoop wLateOk.sched cfgMin.nspace).timedOut = true ∧
    (runLoop wLateOk.sched cfgMin.nspace).events.getLast? = some infoTimeout ∧
    (generate "k" "" (some ("helm", cfgMin)) wLateOk).events.getLast? =
      some (Event.mk "complete" none) := by
  have h := c4_amended_soft_timeout "k" "" "helm" cfgMin wLateOk (by decide)
    (by intro i hi; simp [cfgMin] at hi) (fun _ => rfl)
  exact ⟨h.1, h.2.1, h.2.2.1 rfl⟩

/-- A schedule whose first poll returns `a`, whose second returns the
empty string, and on which the runner then completes. -/
def sched5 : Nat → IterObs := fun i =>
  if i = 0 then ⟨[], false, some "a"⟩
  else if i = 1 then ⟨[], false, some ""⟩
  else ⟨[], true, none⟩

/-- Counterexample to C5 as stated: the two consecutive successful polls
return `a` and then `""` — trimmed texts that differ — yet only one
`pods`/`pod` group is emitted, because the code additionally requires the
polled text to be non-empty (app.py line 309). -/
theorem c5_counterexample :
    ((runLoop sched5 "nemo").events.filter (fun e => e.ty == "pods")).length = 1 ∧
    (sched5 0).poll = some "a" ∧ (sched5 1).poll = some "" ∧
    pyStrip "" ≠ pyStrip "a" := by
  refine ⟨?_, rfl, rfl, by decide⟩
  decide

/-- C5 (amended): a `pods`/`pod` group is emitted exactly when the trimmed
polled text is non-empty and differs from the last recorded status text
(which updates only when a group is emitted); each group is one `pods`
header followed by at most 15 `pod` events, the non-blank lines among the
first 15 raw lines; and a repeated identical poll emits nothing. -/
theorem c5_amended_pod_groups (lastPod : String) (res : Option String) :
    ((pollEvents lastPod res).1 ≠ [] ↔
      ∃ s, res = some s ∧ pyStrip s ≠ "" ∧ pyStrip s ≠ lastPod) ∧
    (∀ s, res = some s → pyStrip s ≠ "" → pyStrip s ≠ lastPod →
      (pollEvents lastPod res).1 =
        podsHeader ::
          (((pySplitNl (pyStrip s)).take 15).filter (fun ln => pyStrip ln ≠ "")).map
            (fun ln => Event.mk "pod" (some ln)) ∧
      (pollEvents lastPod res).1.length ≤ 16 ∧
      (pollEvents lastPod res).2 = pyStrip s) ∧
    (∀ s, (pollEvents (pyStrip s) (some s)).1 = []) := by
  refine ⟨⟨?_, ?_⟩, ?_, ?_⟩
  · intro hne
    cases res with
    | none => simp [pollEvents] at hne
    | some s =>
      refine ⟨s, rfl, ?_⟩
      unfold pollEvents at hne
      dsimp only at hne
      split at hne
      · rename_i hcond; exact hcond
      · simp at hne
  · rintro ⟨s, rfl, h1, h2⟩
    unfold pollEvents
    dsimp only
    rw [if_pos ⟨h1, h2⟩]
    simp
  · rintro s rfl h1 h2
    unfold pollEvents
    dsimp only
    rw [if_pos ⟨h1, h2⟩]
    refine ⟨rfl, ?_, rfl⟩
    simp only [List.length_cons, List.length_map]
    have hf := List.length_filter_le (fun ln => pyStrip ln ≠ "")
      ((pySplitNl (pyStrip s)).take 15)
    have ht := List.length_take_le 15 (pySplitNl (pyStrip s))
    omega
  · intro s
    unfold pollEvents
    dsimp only
    rw [if_neg (by simp)]

/-- Witness for the amended C5 at a concrete poll. -/
theorem c5_amended_pod_groups_witness :
    (pollEvents "" (some "p1 Running")).1 =
      podsHeader ::
        (((pySplitNl (pyStrip "p1 Running")).take 15).filter (fun ln => pyStrip ln ≠ "")).map
          (fun ln => Event.mk "pod" (some ln)) ∧
    (pollEvents (pyStrip "p1 Running") (some "p1 Running")).1 = [] := by
  have h := c5_amended_pod_groups "" (some "p1 Running")
  exact ⟨(h.2.1 "p1 Running" rfl (by decide) (by decide)).1, h.2.2 "p1 Running"⟩

/-- A configuration whose main command contains the character `*`. -/
def cfgStar : DeployConfig := ⟨"/app", "NGC_API_KEY", [], "echo *", [], "nemo", ""⟩

/-- A deploy-world that is never consulted (dry-run executes nothing). -/
def dwNone : DeployWorld := ⟨fun _ => ⟨0, "", ""⟩, ⟨0, "", ""⟩⟩

/-- Counterexample to C6 as stated: with the non-empty credential `*` and
main command `echo *`, the dry-run echo is `echo ***` — the replacement
text `***` reintroduces the credential, which occurs as a substring of the
echoed command. -/
theorem c6_counterexample :
    ("*" : String) ≠ "" ∧
    (deploy "*" "" true false (some ("helm", cfgStar)) dwNone).executed = [] ∧
    (deploy "*" "" true false (some ("helm", cfgStar)) dwNone).body =
      RespBody.dry ⟨"helm", "", "/app",
        [("NGC_API_KEY", "***hidden***"), ("VERSION", "")], [], "echo ***"⟩ ∧
    "*".data <:+: "echo ***".data := by
  refine ⟨by decide, by decide, by decide, by decide⟩

/-- C6 (amended): in dry-run mode nothing is executed, and for every
non-empty credential that does not contain the character `*` the
credential does not occur as a substring of any echoed command (the `***`
replacement text can reintroduce credentials containing `*`; the two
password-fragment substitution passes are applied on top). -/
theorem c6_amended_dry_run_masking (apiKey version dt : String) (c : DeployConfig)
    (dryRun envDry : Bool) (w : DeployWorld)
    (h1 : apiKey ≠ "") (h2 : '*' ∉ apiKey.data) (hdry : (dryRun || envDry) = true) :
    (deploy apiKey version dryRun envDry (some (dt, c)) w).executed = [] ∧
    ∃ info, (deploy apiKey version dryRun envDry (some (dt, c)) w).body = RespBody.dry info ∧
      (∀ cmd ∈ info.pre_commands, ¬ apiKey.data <:+: cmd.data) ∧
      ¬ apiKey.data <:+: info.main_command.data := by
  have hde : deploy apiKey version dryRun envDry (some (dt, c)) w =
      ⟨200, RespBody.dry
        { deployment_type := dt
          version := if version = "" then c.default_version else version
          working_directory := c.working_dir
          env_shown := [(c.env_var, "***hidden***"),
            ("VERSION", if version = "" then c.default_version else version)]
          pre_commands := c.pre_commands.map (mask_secrets apiKey)
          main_command := mask_secrets apiKey c.command }, []⟩ := by
    unfold deploy
    rw [hdry]
    dsimp only
    rw [if_neg h1, if_pos rfl]
  rw [hde]
  refine ⟨rfl, _, rfl, ?_, mask_secrets_no_key h1 h2⟩
  intro cmd hcmd
  obtain ⟨orig, -, hco⟩ := List.mem_map.mp hcmd
  rw [← hco]
  exact mask_secrets_no_key h1 h2

/-- A configuration whose commands embed the credential `SECRET123`. -/
def cfgSecret : DeployConfig :=
  ⟨"/app", "NGC_API_KEY", ["helm fetch --set key=SECRET123"],
   "helm install --set key=SECRET123", [], "nemo", "1.0"⟩

/-- Witness for the amended C6 at the spec's own example credential. -/
theorem c6_amended_dry_run_masking_witness :
    (deploy "SECRET123" "" true false (some ("helm", cfgSecret)) dwNone).executed = [] ∧
    ∃ info, (deploy "SECRET123" "" true false (some ("helm", cfgSecret)) dwNone).body =
        RespBody.dry info ∧
      (∀ cmd ∈ info.pre_commands, ¬ "SECRET123".data <:+: cmd.data) ∧
      ¬ "SECRET123".data <:+: info.main_command.data :=
  c6_amended_dry_run_masking "SECRET123" "" "helm" cfgSecret true false dwNone
    (by decide) (by decide) (by decide)

/-- Per-source events of the log-source loop: the `info` header of every
source is present, and a failing source contributes its `error` event. -/
theorem logSourceEvents_mem (ver : String) (logRun : Nat → Except String String) :
    ∀ srcs i fi (h : fi < srcs.length),
      Event.mk "info" (some ("--- " ++ (srcs.get ⟨fi, h⟩).label ++ " ---")) ∈
        (logSourceEvents ver logRun i srcs).1 ∧
      (∀ e, logRun (i + fi) = .error e →
        Event.mk "error" (some ("Failed to get " ++ (srcs.get ⟨fi, h⟩).label ++ ": " ++ e)) ∈
          (logSourceEvents ver logRun i srcs).1) := by
  intro srcs
  induction srcs with
  | nil => intro i fi h; simp at h
  | cons src rest ih =>
    intro i fi h
    cases fi with
    | zero =>
      constructor
      · unfold logSourceEvents
        dsimp only
        simp
      · intro e he
        rw [Nat.add_zero] at he
        unfold logSourceEvents
        dsimp only
        rw [he]
        simp
    | succ fi =>
      have hlt : fi < rest.length := by simpa using Nat.lt_of_succ_lt_succ h
      have hih := ih (i + 1) fi hlt
      constructor
      · unfold logSourceEvents
        dsimp only
        rw [List.get_cons_succ]
        exact List.mem_append.mpr (Or.inr hih.1)
      · intro e he
        rw [show i + (fi + 1) = i + 1 + fi from by omega] at he
        have hmem := hih.2 e he
        unfold logSourceEvents
        dsimp only
        rw [List.get_cons_succ]
        exact List.mem_append.mpr (Or.inr hmem)

/-- C8: during post-success final-status reporting, a failing log source
surfaces as one `error` event naming its label, every configured source's
`info` header still appears (the remaining sources are not aborted), and
the terminal `complete` event is still the final event of the stream. -/
theorem c8_log_source_failure_isolated (apiKey version dt : String) (c : DeployConfig)
    (w : World) (fi : Nat) (e : String) (hk : apiKey ≠ "")
    (hpre : ∀ i, i < c.pre_commands.length → (w.pre i).returncode = 0)
    (hrc : w.finalRC = some 0)
    (hfi : fi < c.log_sources.length) (herr : w.logRun fi = .error e) :
    Event.mk "error" (some ("Failed to get " ++ (c.log_sources.get ⟨fi, hfi⟩).label ++ ": " ++ e)) ∈
      (generate apiKey version (some (dt, c)) w).events ∧
    (∀ j (hj : j < c.log_sources.length),
      Event.mk "info" (some ("--- " ++ (c.log_sources.get ⟨j, hj⟩).label ++ " ---")) ∈
        (generate apiKey version (some (dt, c)) w).events) ∧
    (generate apiKey version (some (dt, c)) w).events.getLast? =
      some (Event.mk "complete" none) := by
  have hok := (preRun_all_zero w.pre c.pre_commands.length c.pre_commands 0
    (fun j hj => by
      have h := hpre j hj
      rwa [Nat.zero_add])).1
  have hemb : ∀ x, x ∈ (logSourceEvents
      (if version = "" then c.default_version else version) w.logRun 0 c.log_sources).1 →
      x ∈ (generate apiKey version (some (dt, c)) w).events := by
    intro x hx
    rw [generate_success_events apiKey version dt c w hk hok hrc]
    simp only [List.mem_append, List.mem_cons]
    tauto
  refine ⟨?_, ?_, (generate_success_terminal apiKey version dt c w hk hok hrc).1⟩
  · exact hemb _ ((logSourceEvents_mem _ w.logRun c.log_sources 0 fi hfi).2 e
      (by rwa [Nat.zero_add]))
  · intro j hj
    exact hemb _ (logSourceEvents_mem _ w.logRun c.log_sources 0 j hj).1

/-- Two log sources, the first of which will fail. -/
def cfgLogs : DeployConfig :=
  ⟨"/app", "NGC_API_KEY", [], "helm install nmp",
   [⟨"kubectl get svc", "Services"⟩, ⟨"kubectl logs x", "Logs"⟩], "nemo", ""⟩

/-- A world whose first log source raises and whose second succeeds. -/
def wLogFail : World :=
  ⟨fun _ => ⟨0, "", []⟩, schedDone, some 0, "", [],
   fun i => if i = 0 then .error "timeout" else .ok "svc ok"⟩

/-- Witness for C8 at a run whose first of two log sources fails. -/
theorem c8_log_source_failure_isolated_witness :
    Event.mk "error" (some ("Failed to get " ++
        (cfgLogs.log_sources.get ⟨0, by decide⟩).label ++ ": " ++ "timeout")) ∈
      (generate "k" "" (some ("helm", cfgLogs)) wLogFail).events ∧
    (∀ j (hj : j < cfgLogs.log_sources.length),
      Event.mk "info" (some ("--- " ++ (cfgLogs.log_sources.get ⟨j, hj⟩).label ++ " ---")) ∈
        (generate "k" "" (some ("helm", cfgLogs)) wLogFail).events) ∧
    (generate "k" "" (some ("helm", cfgLogs)) wLogFail).events.getLast? =
      some (Event.mk "complete" none) :=
  c8_log_source_failure_isolated "k" "" "helm" cfgLogs wLogFail 0 "timeout"
    (by decide) (by intro i hi; simp [cfgLogs] at hi) (by decide) (by decide) rfl
